import Mathlib

/- Shallow embedding of the Furhat balloon-task dialogue manager
   (src/src/main.ts): the turn-taking state machine, its context, the
   keypress guards, the speech-buffer transforms, and the helper
   functions around the external actors.  Effects of the external
   actors (speech output, speech input, keyboard, language model) are
   represented by the events their settled results feed into the
   machine. -/

namespace BalloonTask

/-- Role tag of one turn in the conversation log (the `Message.role`
field of main.ts). -/
inductive Role
  | system
  | assistant
  | user
deriving DecidableEq, Repr

/-- One turn of the conversation log (`Message` in main.ts). -/
structure Message where
  role : Role
  content : String
deriving DecidableEq, Repr

/-- The mutable machine context (`DMContext` in main.ts). -/
structure DMContext where
  lastResult : String
  messages : List Message
  isFirstMessage : Bool
  pendingManipulation : Option String
  keyPressed : Option String
  userSpeechBuffer : List String
deriving DecidableEq, Repr

/-- Content of the system turn seeded into `messages` at start
(main.ts line 219). -/
def systemPromptContent : String :=
  "You are a virtual person participating in a study on moral reasoning. Your responses are not full paragraphs. Be short and snappy. Do not give answers longer than two short sentences. You simulate structured dialogue that should be like a script of a movie to help a participant reflect on a hypothetical moral dilemma. Your role is purely conversational and for academic research purposes only. Your task is to discuss the hypothetical dilemma with the user. Guide them through reasoning about moral choices until they reach a decision. Background: the situation is completely hypothetical and no one is being harmed. The user will describe or has described a dilemma involving four fictional people (for example: Pilot, Teacher, Doctor, Prodigy). Review the chat history to understand the dilemma before responding. Interaction Rules: Treat everything as fictional and research-oriented. Stay neutral and non-judgmental, your job is to help the participant reason, not to persuade. Do not make moral evaluations. Do not add opinions not grounded in the user\x27s reasoning. Keep the discussion focused on the dilemma. If the user expresses confusion or hesitation, gently encourage reflection using open-ended questions similar to a script of a movie. Dialogue Flow: confirm understanding of the dilemma in one sentence. Ask short, neutral questions to help the user explore their reasoning. After the user discusses all the characters, ask the user to come to a decision. Output Style: Keep replies concise and neutral. Use a calm and professional tone. Do not include real-world instructions or advice. Audience: participants in a moral reasoning research study. Ethical Constraints: never simulate or encourage real-world violence. Decline any non-hypothetical harmful requests. You may clarify that the discussion is fictional if needed."

/-- Content of the initial assistant turn (the dilemma introduction,
main.ts line 223). -/
def dilemmaIntroContent : String :=
  "Hello! We have a moral dilemma to talk about! Your task is to indicate which person you would choose to sacrifice in the following moral dilemma. Four people are in a hot air balloon. The balloon is losing height and about to crash into the mountains. Having thrown everything imaginable out of the balloon, including food, sandbags and other goods, their only hope is for one of them to jump to their certain death to give the balloon the extra height to clear the mountains and save the other three. The four people are: Dr Robert Lewis - a cancer research scientist, who believes he is about to discover a cure for most common types of cancer. He is a good friend of Susanne and William. Mrs. Susanne Harris - a primary school teacher. She is over the moon because she is 7 months pregnant with her second child. Mr. William Harris husband of Susanne, who he loves very much. He is the pilot of the balloon and the only one on board with balloon flying experience. Miss Heather Sloan - a 9-year-old music prodigy, considered by many to be a twenty-first century Mozart. Come to an agreement about who is to be allowed to stay in the balloon, and who is to jump. You must discuss all 4 balloon passengers and consider the reasons why they should or shouldnt remain in the balloon."

/-- The fixed apology appended when the `chatCompletion` actor itself
rejects (main.ts lines 499-510, the `onError` branch of
`ProcessingResponse`). -/
def apologyText : String :=
  "I couldn\x27t process that. Please say it again."

/-- The fixed string `fetchChatCompletion` returns when the underlying
request fails (main.ts line 119, the `catch` branch). -/
def ollamaErrorText : String :=
  "Error while connecting to the language model. Probably ssh tunnel is not active."

/-- The fixed closing line of the `End` state (main.ts lines 541 and 551). -/
def farewellText : String :=
  "Thank you for your participation."

/-- Lowercasing of a string, character by character (the model of the
JS `toLowerCase()`); equal to `String.toLower`, but stated on the
character list so that the kernel can evaluate it. -/
def lowerString (s : String) : String := ⟨s.data.map Char.toLower⟩

/-- Replaces an utterance containing the marker `nomatch` (compared on
the lowercased text, as `toLowerCase().includes` does) by the literal
placeholder; any other utterance is returned unchanged
(`sanitizeUtterance`, main.ts lines 150-156). -/
def sanitizeUtterance (utterance : String) : String :=
  if "nomatch".data <:+: (lowerString utterance).data then "..." else utterance

/-- Outcome of `fetchChatCompletion` (main.ts lines 90-121): the
function awaits the Ollama request, whose settled result is either a
reply text or a failure; every failure is caught inside the function
and turned into the fixed error string, so the function itself never
throws.  The `messages` argument is the history passed to the model;
it does not influence which branch is taken. -/
def fetchChatCompletion (_messages : List Message) (outcome : Except Unit String) : String :=
  match outcome with
  | .ok reply => reply
  | .error _ => ollamaErrorText

/-- Result of one `waitForKeypress` call (main.ts lines 124-139) on a
key event with modifier flag `ctrl` and key name `name`: Ctrl+C exits
the process (modelled as `none`); every other key resolves with the
lowercased key name. -/
def waitForKeypress (ctrl : Bool) (name : String) : Option String :=
  if ctrl && name == "c" then none else some (lowerString name)

/-- The twelve manipulation (stimulus) keys accepted by the
`isManipulationKey` guard (main.ts line 201). -/
def manipulationKeys : List String :=
  ["1", "2", "3", "4", "q", "w", "e", "r", "a", "s", "d", "f"]

/-- The static key-to-phrase table of the `AddManipulation` state
(main.ts lines 422-438). -/
def manipulations : List (String × String) :=
  [("1", "Hmm, the Doctor?"),
   ("2", "Hmm, the pregnant lady?"),
   ("3", "Hmm, the child?"),
   ("4", "Hmm, the pilot?"),
   ("q", "........ The Doctor?"),
   ("w", "........ The pregnant lady?"),
   ("e", "........ The child?"),
   ("r", "........ The pilot?"),
   ("a", "Hahaha, the Doctor?"),
   ("s", "Hahaha, the pregnant lady?"),
   ("d", "Hahaha, the child?"),
   ("f", "Hahaha, the pilot?")]

/-- Lookup in the manipulation table (`manipulations[key]` in JS:
`none` models `undefined`). -/
def manipulationPhrase (k : String) : Option String :=
  (manipulations.find? (fun p => p.1 == k)).map Prod.snd

/-- Guard `isListMessagesKey` (main.ts line 193). -/
def isListMessagesKey (ctx : DMContext) : Bool :=
  ctx.keyPressed == some "m"

/-- Guard `isDiscussKey` (main.ts line 195). -/
def isDiscussKey (ctx : DMContext) : Bool :=
  ctx.keyPressed == some "l"

/-- Guard `isQuitKey` (main.ts line 197). -/
def isQuitKey (ctx : DMContext) : Bool :=
  ctx.keyPressed == some "0"

/-- Guard `isManipulationKey` (main.ts lines 199-202): the key is not
null and belongs to the twelve-member stimulus set. -/
def isManipulationKey (ctx : DMContext) : Bool :=
  match ctx.keyPressed with
  | none => false
  | some k => manipulationKeys.contains k

/-- Guard `isYesKey` (main.ts line 204). -/
def isYesKey (ctx : DMContext) : Bool :=
  ctx.keyPressed == some "y"

/-- Guard `isNoKey` (main.ts line 205). -/
def isNoKey (ctx : DMContext) : Bool :=
  ctx.keyPressed == some "n"

/-- The states of the dialogue machine (main.ts lines 227-618; the
compound `SetupFurhat` state is flattened into its two children). -/
inductive MState
  | SetVoice
  | AttendUser
  | InitialSpeak
  | ListeningOrWaitingForKey
  | CheckIfKeypressOrContinueListening
  | ProcessAccumulatedSpeech
  | ProcessKeypress
  | ListMessages
  | AddManipulation
  | SpeakManipulation
  | ProcessingResponse
  | Speaking
  | End
  | SessionExitingQuestionForTheResearcher
  | LastQuestionWaitForYN
  | ProcessYN
  | ListMessagesBeforeFinal
  | Done
deriving DecidableEq, Repr

/-- Events the machine consumes: settled results of the invoked
external actors, plus `tau` for the eventless (`always`) transitions. -/
inductive Event
  | voiceDone
  | voiceError
  | attendDone
  | attendError
  | speakDone
  | speakError
  | raceSpeech (utterance : String)
  | raceKey (k : String)
  | raceError
  | llmDone (reply : String)
  | llmError
  | keyDone (k : String)
  | tau
deriving DecidableEq, Repr

/-- One transition of the machine: in state `s` with context `ctx`,
consuming event `e`, produce the next state and context.  `none` means
the machine has no transition for this event in this state (for an
`always` state this means the machine is stuck there).  Each branch is
the direct translation of the corresponding `onDone`/`onError`/`always`
transition of `dmMachine` in main.ts. -/
def step (s : MState) (ctx : DMContext) (e : Event) : Option (MState × DMContext) :=
  match s, e with
  | .SetVoice, .voiceDone => some (.AttendUser, ctx)
  | .SetVoice, .voiceError => some (.InitialSpeak, ctx)
  | .AttendUser, .attendDone => some (.InitialSpeak, ctx)
  | .AttendUser, .attendError => some (.InitialSpeak, ctx)
  | .InitialSpeak, .speakDone =>
      some (.ListeningOrWaitingForKey, { ctx with isFirstMessage := false })
  | .InitialSpeak, .speakError => some (.ListeningOrWaitingForKey, ctx)
  | .ListeningOrWaitingForKey, .raceSpeech raw =>
      let utterance := sanitizeUtterance raw
      some (.CheckIfKeypressOrContinueListening,
        { ctx with
            lastResult := utterance,
            userSpeechBuffer := ctx.userSpeechBuffer ++ [utterance],
            keyPressed := none })
  | .ListeningOrWaitingForKey, .raceKey k =>
      some (.CheckIfKeypressOrContinueListening, { ctx with keyPressed := some k })
  | .ListeningOrWaitingForKey, .raceError => some (.ListeningOrWaitingForKey, ctx)
  | .CheckIfKeypressOrContinueListening, .tau =>
      if ctx.keyPressed != none then some (.ProcessAccumulatedSpeech, ctx)
      else some (.ListeningOrWaitingForKey, ctx)
  | .ProcessAccumulatedSpeech, .tau =>
      if ctx.userSpeechBuffer.length > 0 then
        some (.ProcessKeypress,
          { ctx with
              messages := ctx.messages ++
                [⟨.user, String.intercalate " " ctx.userSpeechBuffer⟩],
              userSpeechBuffer := [] })
      else some (.ProcessKeypress, ctx)
  | .ProcessKeypress, .tau =>
      if isQuitKey ctx then some (.End, ctx)
      else if isDiscussKey ctx then some (.ProcessingResponse, ctx)
      else if isListMessagesKey ctx then some (.ListMessages, ctx)
      else if isManipulationKey ctx then some (.AddManipulation, ctx)
      else some (.ListeningOrWaitingForKey, ctx)
  | .ListMessages, .tau => some (.ListeningOrWaitingForKey, ctx)
  | .AddManipulation, .tau =>
      match manipulationPhrase (ctx.keyPressed.getD "") with
      | some phrase =>
          some (.SpeakManipulation,
            { ctx with
                messages := ctx.messages ++ [⟨.assistant, phrase⟩],
                pendingManipulation := some phrase })
      | none => none
  | .SpeakManipulation, .speakDone =>
      some (.ListeningOrWaitingForKey, { ctx with pendingManipulation := none })
  | .SpeakManipulation, .speakError => some (.ListeningOrWaitingForKey, ctx)
  | .ProcessingResponse, .llmDone reply =>
      some (.Speaking, { ctx with messages := ctx.messages ++ [⟨.assistant, reply⟩] })
  | .ProcessingResponse, .llmError =>
      some (.Speaking, { ctx with messages := ctx.messages ++ [⟨.assistant, apologyText⟩] })
  | .Speaking, .speakDone => some (.ListeningOrWaitingForKey, ctx)
  | .Speaking, .speakError => some (.ListeningOrWaitingForKey, ctx)
  | .End, .speakDone =>
      some (.LastQuestionWaitForYN,
        { ctx with messages := ctx.messages ++ [⟨.assistant, farewellText⟩] })
  | .End, .speakError => some (.Done, ctx)
  | .SessionExitingQuestionForTheResearcher, .tau => some (.LastQuestionWaitForYN, ctx)
  | .LastQuestionWaitForYN, .keyDone k => some (.ProcessYN, { ctx with keyPressed := some k })
  | .ProcessYN, .tau =>
      if isYesKey ctx then some (.ListMessagesBeforeFinal, ctx)
      else if isNoKey ctx then some (.Done, ctx)
      else none
  | .ListMessagesBeforeFinal, .tau => some (.Done, ctx)
  | _, _ => none

/-- Transitive closure of `step` along a list of events. -/
def stepRun (s : MState) (ctx : DMContext) : List Event → Option (MState × DMContext)
  | [] => some (s, ctx)
  | e :: es =>
      match step s ctx e with
      | some (s', ctx') => stepRun s' ctx' es
      | none => none

/-- The system turn seeded at session start. -/
def systemTurn : Message := ⟨.system, systemPromptContent⟩

/-- The initial assistant turn (the dilemma introduction). -/
def introTurn : Message := ⟨.assistant, dilemmaIntroContent⟩

/-- The initial machine context (main.ts lines 210-226). -/
def initialContext : DMContext :=
  { lastResult := ""
    messages := [systemTurn, introTurn]
    isFirstMessage := true
    pendingManipulation := none
    keyPressed := none
    userSpeechBuffer := [] }

/-- The initial state of the machine (main.ts line 227, first child of
`SetupFurhat`). -/
def initialState : MState := .SetVoice

/-- Configurations reachable from the initial configuration. -/
inductive Reach : MState × DMContext → Prop
  | init : Reach (initialState, initialContext)
  | next {s ctx e s' ctx'} :
      Reach (s, ctx) → step s ctx e = some (s', ctx') → Reach (s', ctx')


/-- The `lowerString` model coincides with `String.toLower`. -/
theorem lowerString_eq_toLower (s : String) : lowerString s = s.toLower := by
  rw [String.toLower, String.map_eq]
  rfl

/-- A context with a non-empty buffer used to instantiate theorems. -/
def ctxWithBuffer : DMContext :=
  { initialContext with userSpeechBuffer := ["I think the doctor", "..."] }

/-- C1: when a keypress ends the listening race, the commit step
(state `ProcessAccumulatedSpeech`) appends exactly one user turn whose
content is the buffered fragments joined with single spaces in arrival
order, empties the buffer, and proceeds to the keypress dispatch; when
the buffer is empty it appends nothing, changes no state, and still
proceeds to the dispatch. -/
theorem commit_flushes_buffer (ctx : DMContext) :
    (ctx.userSpeechBuffer ≠ [] →
      step .ProcessAccumulatedSpeech ctx .tau =
        some (.ProcessKeypress,
          { ctx with
              messages := ctx.messages ++
                [⟨.user, String.intercalate " " ctx.userSpeechBuffer⟩],
              userSpeechBuffer := [] })) ∧
    (ctx.userSpeechBuffer = [] →
      step .ProcessAccumulatedSpeech ctx .tau = some (.ProcessKeypress, ctx)) := by
  constructor
  · intro h
    have hpos : ctx.userSpeechBuffer.length > 0 := List.length_pos.mpr h
    simp [step, hpos]
  · intro h
    simp [step, h]

/-- Instantiation of `commit_flushes_buffer` at concrete contexts with
a non-empty and with an empty buffer. -/
theorem commit_flushes_buffer_witness :
    (ctxWithBuffer.userSpeechBuffer ≠ [] ∧
      step .ProcessAccumulatedSpeech ctxWithBuffer .tau =
        some (.ProcessKeypress,
          { ctxWithBuffer with
              messages := ctxWithBuffer.messages ++
                [⟨.user, String.intercalate " " ctxWithBuffer.userSpeechBuffer⟩],
              userSpeechBuffer := [] })) ∧
    (initialContext.userSpeechBuffer = [] ∧
      step .ProcessAccumulatedSpeech initialContext .tau =
        some (.ProcessKeypress, initialContext)) :=
  ⟨⟨by simp [ctxWithBuffer], (commit_flushes_buffer ctxWithBuffer).1 (by simp [ctxWithBuffer])⟩,
   ⟨rfl, (commit_flushes_buffer initialContext).2 rfl⟩⟩


/-- A context holding one buffered fragment, as left by a listening
race won by the utterance "hello". -/
def ctxHello : DMContext :=
  { initialContext with isFirstMessage := false, userSpeechBuffer := ["hello"] }

/-- C2 counterexample: the unknown key "z" pressed while the fragment
"hello" is buffered does re-enter the listening race, but the history
has gained a user turn and the buffer has been emptied, so the history
and the buffer are not exactly as they were before the keypress. -/
theorem unknownKey_counterexample :
    stepRun .ListeningOrWaitingForKey ctxHello [.raceKey "z", .tau, .tau, .tau] =
      some (.ListeningOrWaitingForKey,
        { ctxHello with
            keyPressed := some "z",
            messages := ctxHello.messages ++ [⟨.user, "hello"⟩],
            userSpeechBuffer := [] }) ∧
    ctxHello.messages ++ [⟨.user, "hello"⟩] ≠ ctxHello.messages ∧
    ([] : List String) ≠ ctxHello.userSpeechBuffer := by
  refine ⟨rfl, fun h => ?_, by simp [ctxHello]⟩
  have hlen := congrArg List.length h
  simp at hlen

/-- Dispatch of a key that matches none of the `ProcessKeypress`
guards: back to the listening race with the context untouched
(main.ts lines 396-400). -/
theorem processKeypress_unknown (ctx : DMContext) (k : String)
    (hk : ctx.keyPressed = some k)
    (hq : k ≠ "0") (hd : k ≠ "l") (hm : k ≠ "m") (hman : k ∉ manipulationKeys) :
    step .ProcessKeypress ctx .tau = some (.ListeningOrWaitingForKey, ctx) := by
  have h1 : isQuitKey ctx = false := by simp [isQuitKey, hk, hq]
  have h2 : isDiscussKey ctx = false := by simp [isDiscussKey, hk, hd]
  have h3 : isListMessagesKey ctx = false := by simp [isListMessagesKey, hk, hm]
  have h4 : isManipulationKey ctx = false := by
    simp [isManipulationKey, hk]
    simpa using hman
  simp [step, h1, h2, h3, h4]

/-- C2 (amended): a keypress that classifies as Unknown re-enters the
listening race, and the classification itself changes no state besides
the notice; but the commit step that precedes it still flushes the
buffer, so the history and buffer are exactly as before the keypress
only when the buffer was empty, and otherwise the history has gained
the flushed user turn and the buffer is empty. -/
theorem unknownKey_reenters_listening (ctx : DMContext) (k : String)
    (hq : k ≠ "0") (hd : k ≠ "l") (hm : k ≠ "m") (hman : k ∉ manipulationKeys) :
    stepRun .ListeningOrWaitingForKey ctx [.raceKey k, .tau, .tau, .tau] =
      some (.ListeningOrWaitingForKey,
        if ctx.userSpeechBuffer = [] then { ctx with keyPressed := some k }
        else
          { ctx with
              keyPressed := some k,
              messages := ctx.messages ++
                [⟨.user, String.intercalate " " ctx.userSpeechBuffer⟩],
              userSpeechBuffer := [] }) := by
  have hrace : step .ListeningOrWaitingForKey ctx (.raceKey k) =
      some (.CheckIfKeypressOrContinueListening, { ctx with keyPressed := some k }) := rfl
  have hcheck : step .CheckIfKeypressOrContinueListening { ctx with keyPressed := some k } .tau =
      some (.ProcessAccumulatedSpeech, { ctx with keyPressed := some k }) := by
    simp [step]
  by_cases hbuf : ctx.userSpeechBuffer = []
  · rw [if_pos hbuf]
    have hcommit : step .ProcessAccumulatedSpeech { ctx with keyPressed := some k } .tau =
        some (.ProcessKeypress, { ctx with keyPressed := some k }) := by
      simp [step, hbuf]
    have hdisp := processKeypress_unknown { ctx with keyPressed := some k } k rfl hq hd hm hman
    simp only [stepRun, hrace, hcheck, hcommit, hdisp]
  · rw [if_neg hbuf]
    have hpos : ({ ctx with keyPressed := some k } : DMContext).userSpeechBuffer.length > 0 :=
      List.length_pos.mpr hbuf
    have hcommit : step .ProcessAccumulatedSpeech { ctx with keyPressed := some k } .tau =
        some (.ProcessKeypress,
          { ctx with
              keyPressed := some k,
              messages := ctx.messages ++
                [⟨.user, String.intercalate " " ctx.userSpeechBuffer⟩],
              userSpeechBuffer := [] }) := by
      simp [step, hpos]
    have hdisp := processKeypress_unknown
      { ctx with
          keyPressed := some k,
          messages := ctx.messages ++
            [⟨.user, String.intercalate " " ctx.userSpeechBuffer⟩],
          userSpeechBuffer := [] } k rfl hq hd hm hman
    simp only [stepRun, hrace, hcheck, hcommit, hdisp]

/-- Instantiation of `unknownKey_reenters_listening` at the key "z"
with the empty initial buffer. -/
theorem unknownKey_reenters_listening_witness :
    stepRun .ListeningOrWaitingForKey initialContext [.raceKey "z", .tau, .tau, .tau] =
      some (.ListeningOrWaitingForKey,
        if initialContext.userSpeechBuffer = [] then
          { initialContext with keyPressed := some "z" }
        else
          { initialContext with
              keyPressed := some "z",
              messages := initialContext.messages ++
                [⟨.user, String.intercalate " " initialContext.userSpeechBuffer⟩],
              userSpeechBuffer := [] }) :=
  unknownKey_reenters_listening initialContext "z"
    (by decide) (by decide) (by decide) (by decide)


/-- C3: whenever the language-model call fails, exactly one fixed
assistant turn is appended to the history and the machine proceeds to
the `Speaking` state, from which every transition returns to the
listening race — the call is never retried.  Both failure surfaces are
covered: the `chatCompletion` actor rejecting (the `onError` branch
appends the apology) and the request failing inside
`fetchChatCompletion`, which catches the error and returns the fixed
error string that the `onDone` branch appends. -/
theorem llmFailure_single_apology (ctx : DMContext) :
    step .ProcessingResponse ctx .llmError =
      some (.Speaking,
        { ctx with messages := ctx.messages ++ [⟨.assistant, apologyText⟩] }) ∧
    step .ProcessingResponse ctx (.llmDone (fetchChatCompletion ctx.messages (.error ()))) =
      some (.Speaking,
        { ctx with messages := ctx.messages ++ [⟨.assistant, ollamaErrorText⟩] }) ∧
    (∀ e s' ctx', step .Speaking ctx e = some (s', ctx') →
      s' = .ListeningOrWaitingForKey) := by
  refine ⟨rfl, rfl, ?_⟩
  intro e s' ctx' h
  cases e <;> simp [step] at h <;> exact h.1.symm

/-- Instantiation of `llmFailure_single_apology` at the initial
context, with the `Speaking` transition taken on a successful
delivery. -/
theorem llmFailure_single_apology_witness :
    step .ProcessingResponse initialContext .llmError =
      some (.Speaking,
        { initialContext with
            messages := initialContext.messages ++ [⟨.assistant, apologyText⟩] }) ∧
    MState.ListeningOrWaitingForKey = .ListeningOrWaitingForKey :=
  ⟨(llmFailure_single_apology initialContext).1,
   (llmFailure_single_apology initialContext).2.2 .speakDone
     .ListeningOrWaitingForKey initialContext rfl⟩


/-- C4 counterexample: when delivering the farewell line fails, the
machine moves directly to the final `Done` state — not to the
print-confirmation state — and no farewell turn is appended (the
context is returned unchanged). -/
theorem farewellFailure_counterexample :
    step .End initialContext .speakError = some (.Done, initialContext) ∧
    MState.Done ≠ .LastQuestionWaitForYN :=
  ⟨rfl, by decide⟩

/-- C4 (amended): pressing the quit key "0" dispatches to the farewell
state; when delivery succeeds the farewell turn is appended and the
print-confirmation state is entered, after which the key "n" reaches
the terminal state directly, bypassing the transcript-printing state;
when delivery fails no farewell turn is appended and the machine goes
directly to the terminal state, skipping the confirmation. -/
theorem quit_farewell_flow (ctx : DMContext) :
    step .ProcessKeypress { ctx with keyPressed := some "0" } .tau =
      some (.End, { ctx with keyPressed := some "0" }) ∧
    step .End ctx .speakDone =
      some (.LastQuestionWaitForYN,
        { ctx with messages := ctx.messages ++ [⟨.assistant, farewellText⟩] }) ∧
    step .End ctx .speakError = some (.Done, ctx) ∧
    stepRun .LastQuestionWaitForYN ctx [.keyDone "n", .tau] =
      some (.Done, { ctx with keyPressed := some "n" }) := by
  refine ⟨?_, rfl, rfl, ?_⟩
  · simp [step, isQuitKey]
  · have h1 : step .LastQuestionWaitForYN ctx (.keyDone "n") =
        some (.ProcessYN, { ctx with keyPressed := some "n" }) := rfl
    have h2 : step .ProcessYN { ctx with keyPressed := some "n" } .tau =
        some (.Done, { ctx with keyPressed := some "n" }) := by
      simp [step, isYesKey, isNoKey]
    simp only [stepRun, h1, h2]


/-- C5: at the end-of-session confirmation prompt, a keypress other
than "y" or "n" (here "x") is recorded and the machine enters the
`ProcessYN` dispatch, where no guard matches and no event of any kind
has a transition: the machine is stuck there forever — it does not
reach the terminal state, it silently hangs. -/
theorem confirm_nonYN_stuck :
    stepRun .LastQuestionWaitForYN initialContext [.keyDone "x"] =
      some (.ProcessYN, { initialContext with keyPressed := some "x" }) ∧
    (∀ e : Event, step .ProcessYN { initialContext with keyPressed := some "x" } e = none) := by
  refine ⟨rfl, ?_⟩
  intro e
  cases e <;> rfl


/-- C6 counterexample: stimulus key "1" with a failing delivery: the
machine re-enters the listening race with `pendingManipulation` still
holding the phrase — the field is not cleared within the traversal. -/
theorem staleManipulation_counterexample :
    stepRun .ProcessKeypress { initialContext with keyPressed := some "1" }
        [.tau, .tau, .speakError] =
      some (.ListeningOrWaitingForKey,
        { initialContext with
            keyPressed := some "1",
            messages := initialContext.messages ++ [⟨.assistant, "Hmm, the Doctor?"⟩],
            pendingManipulation := some "Hmm, the Doctor?" }) ∧
    (some "Hmm, the Doctor?" : Option String) ≠ none :=
  ⟨rfl, by decide⟩

/-- C6 (amended): within a stimulus traversal `AddManipulation` sets
the pending field (and appends the assistant turn), and the field is
cleared again when the delivery call succeeds; when the delivery call
fails the machine re-enters the listening race with the field still
holding the phrase, which is only overwritten by the next stimulus
traversal. -/
theorem manipulation_pending_lifecycle (ctx : DMContext) (k phrase : String)
    (hk : ctx.keyPressed = some k) (hp : manipulationPhrase k = some phrase) :
    step .AddManipulation ctx .tau =
      some (.SpeakManipulation,
        { ctx with
            messages := ctx.messages ++ [⟨.assistant, phrase⟩],
            pendingManipulation := some phrase }) ∧
    (∀ ctx' : DMContext,
      step .SpeakManipulation ctx' .speakDone =
        some (.ListeningOrWaitingForKey, { ctx' with pendingManipulation := none })) ∧
    (∀ ctx' : DMContext,
      step .SpeakManipulation ctx' .speakError = some (.ListeningOrWaitingForKey, ctx')) := by
  refine ⟨?_, fun _ => rfl, fun _ => rfl⟩
  simp [step, hk, hp]

/-- Instantiation of `manipulation_pending_lifecycle` at the stimulus
key "1". -/
theorem manipulation_pending_lifecycle_witness :
    step .AddManipulation { initialContext with keyPressed := some "1" } .tau =
      some (.SpeakManipulation,
        { { initialContext with keyPressed := some "1" } with
            messages := initialContext.messages ++ [⟨.assistant, "Hmm, the Doctor?"⟩],
            pendingManipulation := some "Hmm, the Doctor?" }) :=
  (manipulation_pending_lifecycle { initialContext with keyPressed := some "1" }
    "1" "Hmm, the Doctor?" rfl rfl).1


/-- C7: every utterance whose text contains the no-match marker as a
substring, in any letter case (that is, whose lowercased character
list contains the characters of "nomatch" as an infix), is replaced by
the literal placeholder before being buffered, and every other
utterance is buffered unchanged; buffering the utterances "NOMATCH"
and "NoMatch foo" through the listening race and then committing with
the discuss key yields the single user turn with content "... ...". -/
theorem sanitize_replaces_nomatch :
    (∀ u : String,
      "nomatch".data <:+: (lowerString u).data → sanitizeUtterance u = "...") ∧
    (∀ u : String,
      ¬ "nomatch".data <:+: (lowerString u).data → sanitizeUtterance u = u) ∧
    stepRun .ListeningOrWaitingForKey { initialContext with isFirstMessage := false }
        [.raceSpeech "NOMATCH", .tau, .raceSpeech "NoMatch foo", .tau,
         .raceKey "l", .tau, .tau] =
      some (.ProcessKeypress,
        { initialContext with
            isFirstMessage := false,
            lastResult := "...",
            keyPressed := some "l",
            messages := initialContext.messages ++ [⟨.user, "... ..."⟩] }) := by
  refine ⟨fun u h => ?_, fun u h => ?_, ?_⟩
  · simp [sanitizeUtterance, h]
  · simp [sanitizeUtterance, h]
  · rfl

/-- Instantiation of `sanitize_replaces_nomatch` at the marker-bearing
utterance "NoMatch foo" and at the plain utterance "hello". -/
theorem sanitize_replaces_nomatch_witness :
    ("nomatch".data <:+: (lowerString "NoMatch foo").data ∧
      sanitizeUtterance "NoMatch foo" = "...") ∧
    (¬ "nomatch".data <:+: (lowerString "hello").data ∧
      sanitizeUtterance "hello" = "hello") :=
  ⟨⟨by decide, sanitize_replaces_nomatch.1 "NoMatch foo" (by decide)⟩,
   ⟨by decide, sanitize_replaces_nomatch.2.1 "hello" (by decide)⟩⟩


/-- The closed set of action variants of keypress classification
(§4.3: quit, discuss, list-transcript, the stimulus injections, the
confirmation keys, and the catch-all). -/
inductive KeyAction
  | quit
  | discuss
  | listTranscript
  | injectStimulus (variant : String)
  | confirmYes
  | confirmNo
  | unknown
deriving DecidableEq, Repr

/-- Keypress classification with the guards evaluated in the fixed
priority order of the source (the `always` list of `ProcessKeypress`,
main.ts lines 372-402, followed by the `ProcessYN` guards, lines
583-596), with `unknown` as the catch-all. -/
def classifyPriority (ctx : DMContext) : KeyAction :=
  if isQuitKey ctx then .quit
  else if isDiscussKey ctx then .discuss
  else if isListMessagesKey ctx then .listTranscript
  else if isManipulationKey ctx then .injectStimulus (ctx.keyPressed.getD "")
  else if isYesKey ctx then .confirmYes
  else if isNoKey ctx then .confirmNo
  else .unknown

/-- The same classification with the guards evaluated in the opposite
order; agreement with `classifyPriority` witnesses that guard
evaluation order is irrelevant. -/
def classifyReversed (ctx : DMContext) : KeyAction :=
  if isNoKey ctx then .confirmNo
  else if isYesKey ctx then .confirmYes
  else if isManipulationKey ctx then .injectStimulus (ctx.keyPressed.getD "")
  else if isListMessagesKey ctx then .listTranscript
  else if isDiscussKey ctx then .discuss
  else if isQuitKey ctx then .quit
  else .unknown

/-- C8: keypress classification is a total, mutually exclusive
partition: in every context at most one of the six source guards
holds (so together with the catch-all, exactly one action variant
applies to every token), and evaluating the guards in the opposite
order yields the same classification, so the result does not depend
on guard evaluation order. -/
theorem keypress_classification_partition (ctx : DMContext) :
    ([isQuitKey ctx, isDiscussKey ctx, isListMessagesKey ctx,
      isManipulationKey ctx, isYesKey ctx, isNoKey ctx].count true ≤ 1) ∧
    classifyPriority ctx = classifyReversed ctx := by
  rcases hkp : ctx.keyPressed with _ | k
  · simp [isQuitKey, isDiscussKey, isListMessagesKey, isManipulationKey, isYesKey, isNoKey,
      classifyPriority, classifyReversed, hkp]
  · by_cases h0 : k = "0"
    · subst h0
      simp [isQuitKey, isDiscussKey, isListMessagesKey, isManipulationKey, isYesKey, isNoKey,
        classifyPriority, classifyReversed, hkp, manipulationKeys]
    by_cases hl : k = "l"
    · subst hl
      simp [isQuitKey, isDiscussKey, isListMessagesKey, isManipulationKey, isYesKey, isNoKey,
        classifyPriority, classifyReversed, hkp, manipulationKeys]
    by_cases hm : k = "m"
    · subst hm
      simp [isQuitKey, isDiscussKey, isListMessagesKey, isManipulationKey, isYesKey, isNoKey,
        classifyPriority, classifyReversed, hkp, manipulationKeys]
    by_cases hy : k = "y"
    · subst hy
      simp [isQuitKey, isDiscussKey, isListMessagesKey, isManipulationKey, isYesKey, isNoKey,
        classifyPriority, classifyReversed, hkp, manipulationKeys]
    by_cases hn : k = "n"
    · subst hn
      simp [isQuitKey, isDiscussKey, isListMessagesKey, isManipulationKey, isYesKey, isNoKey,
        classifyPriority, classifyReversed, hkp, manipulationKeys]
    by_cases hman : k ∈ manipulationKeys
    · fin_cases hman <;>
        simp [isQuitKey, isDiscussKey, isListMessagesKey, isManipulationKey, isYesKey, isNoKey,
          classifyPriority, classifyReversed, hkp, manipulationKeys]
    · have hc : manipulationKeys.contains k = false := by
        simp [manipulationKeys] at hman
        simp [manipulationKeys, hman.1, hman.2.1, hman.2.2.1, hman.2.2.2.1, hman.2.2.2.2.1,
          hman.2.2.2.2.2.1, hman.2.2.2.2.2.2.1, hman.2.2.2.2.2.2.2.1,
          hman.2.2.2.2.2.2.2.2.1, hman.2.2.2.2.2.2.2.2.2.1,
          hman.2.2.2.2.2.2.2.2.2.2.1, hman.2.2.2.2.2.2.2.2.2.2.2]
      simp [isQuitKey, isDiscussKey, isListMessagesKey, isManipulationKey, isYesKey, isNoKey,
        classifyPriority, classifyReversed, hkp, hc, h0, hl, hm, hy, hn, hman]


/-- Every single transition either leaves the message history unchanged
or appends to it: no transition of the machine edits or removes an
existing turn. -/
theorem step_messages_mono {s : MState} {ctx : DMContext} {e : Event} {s' : MState}
    {ctx' : DMContext} (h : step s ctx e = some (s', ctx')) :
    ∃ t, ctx'.messages = ctx.messages ++ t := by
  cases s <;> cases e <;> simp only [step] at h <;>
    (try split at h) <;> (try split at h) <;> (try split at h) <;> (try split at h) <;>
    (try exact Option.noConfusion h) <;>
    (simp only [Option.some.injEq, Prod.mk.injEq] at h) <;>
    (obtain ⟨rfl, rfl⟩ := h) <;>
    (first
      | exact ⟨_, rfl⟩
      | exact ⟨[], (List.append_nil _).symm⟩)

/-- In every reachable configuration the first element of the history
is the system turn seeded at session start. -/
theorem reach_messages_head {cfg : MState × DMContext} (h : Reach cfg) :
    cfg.2.messages.head? = some systemTurn := by
  induction h with
  | init => rfl
  | next hr hs ih =>
      obtain ⟨t, ht⟩ := step_messages_mono hs
      simp only [ht, List.head?_append]
      rw [ih]
      rfl

/-- C9: in every configuration reachable from the initial one the
history starts with the system turn inserted at session start, and
every transition taken from it only ever appends turns to the history
— never edits or removes one. -/
theorem history_monotone_system_first (cfg : MState × DMContext) (h : Reach cfg) :
    cfg.2.messages.head? = some systemTurn ∧
    ∀ (e : Event) (cfg' : MState × DMContext), step cfg.1 cfg.2 e = some cfg' →
      ∃ t, cfg'.2.messages = cfg.2.messages ++ t := by
  refine ⟨reach_messages_head h, ?_⟩
  intro e cfg' hs
  obtain ⟨s', ctx'⟩ := cfg'
  exact step_messages_mono hs

/-- Instantiation of `history_monotone_system_first` at the initial
configuration, which is reachable by definition. -/
theorem history_monotone_system_first_witness :
    (initialState, initialContext).2.messages.head? = some systemTurn ∧
    ∀ (e : Event) (cfg' : MState × DMContext), step initialState initialContext e = some cfg' →
      ∃ t, cfg'.2.messages = initialContext.messages ++ t :=
  history_monotone_system_first (initialState, initialContext) Reach.init


/-- A character is upper-case exactly when its code point lies in the
ASCII range 65-90 (the definition of `Char.isUpper`, restated on
`Nat`). -/
theorem char_isUpper_iff (d : Char) : d.isUpper = true ↔ 65 ≤ d.toNat ∧ d.toNat ≤ 90 := by
  simp [Char.isUpper, UInt32.le_def, BitVec.le_def, Char.toNat, UInt32.toNat]

/-- Packing a valid code point into a character preserves its value. -/
theorem char_toNat_ofNat_valid {m : Nat} (h : m.isValidChar) : (Char.ofNat m).toNat = m := by
  rw [Char.ofNat, dif_pos h]
  simp [Char.ofNatAux, Char.toNat, UInt32.toNat]

/-- Code point of a lowered character: shifted by 32 for ASCII
upper-case letters, unchanged otherwise. -/
theorem char_toLower_toNat (c : Char) :
    (Char.toLower c).toNat = if 65 ≤ c.toNat ∧ c.toNat ≤ 90 then c.toNat + 32 else c.toNat := by
  rw [Char.toLower]
  split
  case isTrue h => exact char_toNat_ofNat_valid (Or.inl (by omega))
  case isFalse h => rfl

/-- A lowered character is never upper-case. -/
theorem char_toLower_not_upper (c : Char) : (Char.toLower c).isUpper = false := by
  have h := char_toLower_toNat c
  have hne : ¬(65 ≤ (Char.toLower c).toNat ∧ (Char.toLower c).toNat ≤ 90) := by
    by_cases hc : 65 ≤ c.toNat ∧ c.toNat ≤ 90
    · rw [if_pos hc] at h
      omega
    · rw [if_neg hc] at h
      omega
  rw [← char_isUpper_iff] at hne
  simpa using hne

/-- Lowering a character is idempotent. -/
theorem char_toLower_idem (c : Char) : (Char.toLower c).toLower = Char.toLower c := by
  have h := char_toLower_toNat c
  have hne : ¬(65 ≤ (Char.toLower c).toNat ∧ (Char.toLower c).toNat ≤ 90) := by
    by_cases hc : 65 ≤ c.toNat ∧ c.toNat ≤ 90
    · rw [if_pos hc] at h
      omega
    · rw [if_neg hc] at h
      omega
  rw [Char.toLower]
  exact if_neg hne

/-- C10: every keypress token delivered to the machine — that is,
every value `waitForKeypress` resolves with, the Ctrl+C escape being
the only non-resolving case — is the lowercased key name: it contains
no upper-case character, so the classifier never observes an
upper-case token, lowercasing is idempotent, and an upper-case key
name yields exactly the same token (hence the same action) as its
lowercase counterpart. -/
theorem waitForKeypress_lowercases :
    (∀ name : String, waitForKeypress false name = some (lowerString name)) ∧
    (∀ (ctrl : Bool) (name tok : String), waitForKeypress ctrl name = some tok →
      tok = lowerString name ∧ ∀ c ∈ tok.data, c.isUpper = false) ∧
    (∀ name : String, lowerString (lowerString name) = lowerString name) ∧
    (∀ name : String, waitForKeypress false name = waitForKeypress false (lowerString name)) := by
  have hidem : ∀ name : String, lowerString (lowerString name) = lowerString name := by
    intro name
    simp [lowerString, List.map_map, Function.comp_def, char_toLower_idem]
  refine ⟨fun name => rfl, ?_, hidem, ?_⟩
  · intro ctrl name tok h
    rw [waitForKeypress] at h
    split at h
    · exact Option.noConfusion h
    · obtain rfl : lowerString name = tok := Option.some.injEq .. ▸ h
      refine ⟨rfl, ?_⟩
      intro c hc
      simp only [lowerString, List.mem_map] at hc
      obtain ⟨a, _, rfl⟩ := hc
      exact char_toLower_not_upper a
  · intro name
    rw [waitForKeypress, waitForKeypress]
    simp [hidem]

/-- Instantiation of `waitForKeypress_lowercases` at the upper-case
key name "A", whose delivered token is "a". -/
theorem waitForKeypress_lowercases_witness :
    waitForKeypress false "A" = some "a" ∧
    ("a" : String) = lowerString "A" ∧ ∀ c ∈ ("a" : String).data, c.isUpper = false :=
  ⟨by decide, waitForKeypress_lowercases.2.1 false "A" "a" (by decide)⟩

end BalloonTask
